import Mathlib

/-!
Verification of the texture-adjustment core of `src/gpu/GrTextureAdjuster.cpp`.

The file embeds the two functions of the source file,
`GrTextureAdjuster::refTextureProxyCopy` (the copy-cache gateway) and
`GrTextureAdjuster::onRefTextureProxyForParams` (the selection façade), as
Lean functions over an explicit cache state, together with the façade
`GrTextureAdjuster::createFragmentProcessor`.  External collaborators that
are only declared, not defined, in the sampled source (the proxy provider's
key table, `CopyOnGpu`, the `GrGpu::IsACopyNeeded…` analyzers and
`DetermineDomainMode`) are supplied either as oracle fields of an
environment record or as definitions modelled from the specification.
Every function returns, besides its result, the updated cache and a trace
of the externally visible effects it performed, so that claims about
"no GPU work attempted" or "detach before attach" are statements about
concrete traces.
-/

/-- A GPU texture proxy.  `id` models pointer identity of the underlying
`GrTextureProxy`; `mipped` models `GrMipMapped::kYes == proxy->mipMapped()`. -/
structure Proxy where
  id : Nat
  width : Nat
  height : Nat
  mipped : Bool
deriving DecidableEq, Repr

/-- Embedding of `CopyParams` from the source: target filter and dimensions of the copy. -/
structure CopyParams where
  width : Nat
  height : Nat
  mipRequested : Bool
deriving DecidableEq, Repr

/-- The state the adjuster is constructed with: the original proxy, the
image unique ID used for key construction, and whether the owning context
is still alive (`fContext != nullptr` in the source). -/
structure Adjuster where
  original : Proxy
  uniqueID : Nat
  contextAlive : Bool
deriving DecidableEq, Repr

/-- The unique key built by `makeCopyKey`: image ID, the full
`SkIRect::MakeWH(width, height)` rectangle of the adjuster, and the copy
parameters. -/
structure Key where
  uid : Nat
  w : Nat
  h : Nat
  params : CopyParams
deriving DecidableEq, Repr

/-- Modelled from the spec: `GrMakeKeyFromImageID` and
`MakeCopyKeyFromOrigKey` are not part of the sampled source; per §4.1 the
key builder is a pure deterministic function of (content identity,
rectangle, copy parameters) and the key is valid only when the content
identity is nonzero. -/
def makeCopyKey (adj : Adjuster) (params : CopyParams) : Key :=
  ⟨adj.uniqueID, adj.original.width, adj.original.height, params⟩

/-- Modelled from the spec: a key is valid iff its content identity is
nonzero (`GrUniqueKey::isValid` of the external key type). -/
def Key.isValid (k : Key) : Bool :=
  k.uid != 0

/-- The proxy provider's unique-key table, modelled as an association list
from keys to proxies; at most one live entry per key is the invariant the
provider maintains. -/
def Cache := List (Key × Proxy)

instance : DecidableEq Cache := by
  unfold Cache
  infer_instance

/-- Embedding of `GrProxyProvider::findOrCreateProxyByUniqueKey`: the first entry under
the key, if any. -/
def findByKey (c : Cache) (k : Key) : Option Proxy :=
  (c.find? (fun e => e.1 = k)).map (fun e => e.2)

/-- Embedding of `GrProxyProvider::removeUniqueKeyFromProxy`: detach the key from the
given proxy (identified by pointer identity). -/
def removeKeyFromProxy (c : Cache) (k : Key) (pid : Nat) : Cache :=
  c.filter (fun e => !(e.1 = k ∧ e.2.id = pid))

/-- Embedding of `GrProxyProvider::assignUniqueKeyToProxy`: attach the key to the proxy. -/
def assignKey (c : Cache) (k : Key) (p : Proxy) : Cache :=
  (k, p) :: c

/-- Externally visible effects of a selection run: cache queries and
mutations, GPU copies, domain-solver invocations and fragment-processor
assembly. -/
inductive Effect where
  | lookup (k : Key)
  | removeKey (k : Key) (pid : Nat)
  | assignKey (k : Key) (p : Proxy)
  | gpuCopy (params : CopyParams) (willBeMipped : Bool)
  | solverCall
  | assembleCall
deriving DecidableEq, Repr

/-- Replay one effect against the cache (lookups, copies and pipeline
calls leave it unchanged). -/
def applyEffect (c : Cache) : Effect → Cache
  | Effect.removeKey k pid => removeKeyFromProxy c k pid
  | Effect.assignKey k p => assignKey c k p
  | _ => c

/-- Replay a list of effects against the cache. -/
def applyEffects (c : Cache) (fx : List Effect) : Cache :=
  fx.foldl applyEffect c

/-- Number of live cache entries under a key. -/
def countKey (c : Cache) (k : Key) : Nat :=
  (c.filter (fun e => e.1 = k)).length

/-- Number of GPU copies issued in a trace. -/
def countGpuCopies (fx : List Effect) : Nat :=
  (fx.filter (fun e => match e with | Effect.gpuCopy _ _ => true | _ => false)).length

/-- Number of domain-solver invocations in a trace. -/
def countSolverCalls (fx : List Effect) : Nat :=
  (fx.filter (fun e => e = Effect.solverCall)).length

/-- Number of fragment-processor assembly invocations in a trace. -/
def countAssembleCalls (fx : List Effect) : Nat :=
  (fx.filter (fun e => e = Effect.assembleCall)).length

/-- The external collaborators of the adjuster, as oracles: the results of
`GrGpu::IsACopyNeededForRepeatWrapMode` (decision, copy parameters and the
`scaleAdjust` it writes), of `GrGpu::IsACopyNeededForMips`, and the
`CopyOnGpu` copy-execution engine. -/
structure Env where
  wrapNeedsCopy : Bool
  wrapCopyParams : CopyParams
  wrapScaleAdjust : ℚ × ℚ
  mipsNeedsCopy : Bool
  mipsCopyParams : CopyParams
  copyOnGpu : CopyParams → Bool → Option Proxy

/-- Sampler state: whether any wrap mode repeats, and the filter. -/
inductive FilterMode where
  | nearest
  | bilerp
  | mipMap
deriving DecidableEq, Repr

/-- Embedding of `GrSamplerState`, reduced to the parts the source consults. -/
structure SamplerState where
  repeated : Bool
  filter : FilterMode
deriving DecidableEq, Repr

/-- Result of the copy-cache gateway: the proxy (or null), the cache after
the call, and the effect trace. -/
structure CopyResult where
  res : Option Proxy
  cache : Cache
  trace : List Effect

/-- Embedding of `GrTextureAdjuster::refTextureProxyCopy`: build the key; on a valid
key query the cache and return a hit that already satisfies the mip
requirement; otherwise run `CopyOnGpu` and, on success with a valid key,
detach the key from a stale cached entry before attaching it to the new
copy.  (`didCacheCopy` is a no-op in the source and the DDL gate only
guards that no-op, so neither appears in the trace.) -/
def refTextureProxyCopy (env : Env) (adj : Adjuster) (copyParams : CopyParams)
    (willBeMipped : Bool) (cache : Cache) : CopyResult :=
  let key := makeCopyKey adj copyParams
  if key.isValid then
    match findByKey cache key with
    | some cc =>
      if !willBeMipped || cc.mipped then
        ⟨some cc, cache, [Effect.lookup key]⟩
      else
        match env.copyOnGpu copyParams willBeMipped with
        | none => ⟨none, cache, [Effect.lookup key, Effect.gpuCopy copyParams willBeMipped]⟩
        | some cp =>
          ⟨some cp, assignKey (removeKeyFromProxy cache key cc.id) key cp,
            [Effect.lookup key, Effect.gpuCopy copyParams willBeMipped,
             Effect.removeKey key cc.id, Effect.assignKey key cp]⟩
    | none =>
      match env.copyOnGpu copyParams willBeMipped with
      | none => ⟨none, cache, [Effect.lookup key, Effect.gpuCopy copyParams willBeMipped]⟩
      | some cp =>
        ⟨some cp, assignKey cache key cp,
          [Effect.lookup key, Effect.gpuCopy copyParams willBeMipped,
           Effect.assignKey key cp]⟩
  else
    match env.copyOnGpu copyParams willBeMipped with
    | none => ⟨none, cache, [Effect.gpuCopy copyParams willBeMipped]⟩
    | some cp => ⟨some cp, cache, [Effect.gpuCopy copyParams willBeMipped]⟩

/-- Result of the selection façade: the proxy (or null), the cache after
the call, the effect trace, and the `scaleAdjust` out-parameter (the
caller initialises it to `(1, 1)`; only the wrap-mode analyzer writes it). -/
structure SelectResult where
  res : Option Proxy
  cache : Cache
  trace : List Effect
  scaleAdjust : ℚ × ℚ

/-- Embedding of `GrTextureAdjuster::onRefTextureProxyForParams`: null immediately on an
abandoned context; otherwise run the wrap-mode analyzer and, when it does
not require a copy, the mips analyzer; with no copy required return the
original; otherwise go through the gateway, falling back to the original
when the copy fails and was only needed for mips. -/
def onRefTextureProxyForParams (env : Env) (adj : Adjuster) (params : SamplerState)
    (willBeMipped : Bool) (cache : Cache) : SelectResult :=
  if !adj.contextAlive then
    ⟨none, cache, [], (1, 1)⟩
  else if !(params.repeated && env.wrapNeedsCopy) then
    if !env.mipsNeedsCopy then
      ⟨some adj.original, cache, [], (1, 1)⟩
    else
      let r := refTextureProxyCopy env adj env.mipsCopyParams willBeMipped cache
      match r.res with
      | none => ⟨some adj.original, r.cache, r.trace, (1, 1)⟩
      | some p => ⟨some p, r.cache, r.trace, (1, 1)⟩
  else
    let r := refTextureProxyCopy env adj env.wrapCopyParams willBeMipped cache
    ⟨r.res, r.cache, r.trace, env.wrapScaleAdjust⟩

/-- A rectangle of rational coordinates (`SkRect`). -/
structure SkRect where
  left : ℚ
  top : ℚ
  right : ℚ
  bottom : ℚ
deriving DecidableEq, Repr

/-- A rectangle is ordered when `left ≤ right` and `top ≤ bottom`. -/
def SkRect.ordered (r : SkRect) : Prop :=
  r.left ≤ r.right ∧ r.top ≤ r.bottom

instance (r : SkRect) : Decidable r.ordered := by
  unfold SkRect.ordered
  infer_instance

/-- The affine part of `SkMatrix`, row major. -/
structure SkMatrix where
  scaleX : ℚ
  skewX : ℚ
  transX : ℚ
  skewY : ℚ
  scaleY : ℚ
  transY : ℚ
deriving DecidableEq, Repr

/-- Embedding of `SkMatrix::postScale`: post-concatenation with a scale, i.e. the first
row is multiplied by `sx` and the second by `sy`. -/
def SkMatrix.postScale (m : SkMatrix) (sx sy : ℚ) : SkMatrix :=
  ⟨m.scaleX * sx, m.skewX * sx, m.transX * sx, m.skewY * sy, m.scaleY * sy, m.transY * sy⟩

/-- The domain modes of the solver (`DomainMode` in the source:
`kNoDomain_DomainMode`, `kDomain_DomainMode`, `kTightCopy_DomainMode`). -/
inductive DomainMode where
  | noDomain
  | clamped
  | tightCopy
deriving DecidableEq, Repr

/-- Filter-constraint strength of the draw request. -/
inductive FilterConstraint where
  | strict
  | approximate
deriving DecidableEq, Repr

/-- Modelled from the spec: the support radius by which the constraint
rectangle is inset, half a texel for bilinear (and for the base level of a
mip chain), the bicubic support radius for bicubic (`none` stands for
bicubic in `filterOrNullForBicubic`), nothing for nearest. -/
def filterBound : Option FilterMode → ℚ
  | some FilterMode.nearest => 0
  | some FilterMode.bilerp => 1 / 2
  | some FilterMode.mipMap => 1 / 2
  | none => 3 / 2

/-- Modelled from the spec: only filters whose reads cannot be confined by
clamping the base level — mip-mapped sampling and bicubic fetching — may
demand an exact tight copy; plain bilinear never does. -/
def tightCopyEligible : Option FilterMode → Bool
  | some FilterMode.mipMap => true
  | none => true
  | _ => false

/-- Inset an interval by `d` on both ends, collapsing to the midpoint when
the inset would invert it. -/
def insetClamped (lo hi d : ℚ) : ℚ × ℚ :=
  if lo + d ≤ hi - d then (lo + d, hi - d) else ((lo + hi) / 2, (lo + hi) / 2)

/-- Clamp a coordinate into `[lo, hi]`. -/
def clampQ (x lo hi : ℚ) : ℚ :=
  min (max x lo) hi

/-- The clamped domain rectangle: the constraint rectangle inset by the
filter bound on each axis, clamped into the texture bounds `[0,w]×[0,h]`. -/
def domRect (c : SkRect) (w h : ℚ) (f : Option FilterMode) : SkRect :=
  ⟨clampQ (insetClamped c.left c.right (filterBound f)).1 0 w,
   clampQ (insetClamped c.top c.bottom (filterBound f)).1 0 h,
   clampQ (insetClamped c.left c.right (filterBound f)).2 0 w,
   clampQ (insetClamped c.top c.bottom (filterBound f)).2 0 h⟩

/-- The filter support around the constraint rectangle reaches outside the
texture's valid extent `[0,w]×[0,h]`. -/
def domainExceeds (c : SkRect) (w h d : ℚ) : Prop :=
  c.left - d < 0 ∨ c.top - d < 0 ∨ w < c.right + d ∨ h < c.bottom + d

instance (c : SkRect) (w h d : ℚ) : Decidable (domainExceeds c w h d) := by
  unfold domainExceeds
  infer_instance

/-- Modelled from the spec: `DetermineDomainMode` is external to the
sampled source.  Per §4.5: nearest filtering or coordinates already
limited to the constraint give `NoDomain`; an approximate constraint
tolerates overscan, also `NoDomain`; a strict constraint under a real
filter insets the constraint rectangle by the filter bound and clamps it
into the texture bounds, giving `Clamped`; when the filter support reaches
outside the texture's valid extent and the filter is one whose reads
cannot be confined by base-level clamping, the result is
`TightCopyRequested` instead. -/
def determineDomainMode (constraintRect : SkRect) (fc : FilterConstraint)
    (coordsLimited : Bool) (texW texH : ℚ) (filter : Option FilterMode) :
    DomainMode × SkRect :=
  if filter = some FilterMode.nearest ∨ coordsLimited then
    (DomainMode.noDomain, constraintRect)
  else if fc = FilterConstraint.approximate then
    (DomainMode.noDomain, constraintRect)
  else if domainExceeds constraintRect texW texH (filterBound filter) ∧
      tightCopyEligible filter then
    (DomainMode.tightCopy, domRect constraintRect texW texH filter)
  else
    (DomainMode.clamped, domRect constraintRect texW texH filter)

/-- The data handed to fragment-processor assembly: the selected proxy,
the adjusted texture matrix, the resolved domain mode and rectangle, and
the original filter request (the spec's `SamplingResult`). -/
structure FragmentProcessor where
  proxy : Proxy
  matrix : SkMatrix
  mode : DomainMode
  domain : SkRect
  filterOrNullForBicubic : Option FilterMode
deriving DecidableEq, Repr

/-- Result of `createFragmentProcessor`: the assembled processor (or
null), the cache after the call, and the effect trace. -/
structure FPResult where
  fp : Option FragmentProcessor
  cache : Cache
  trace : List Effect

/-- The sampler state `createFragmentProcessor` builds: default
clamp/nearest, with the filter set only when one is supplied (`none`
stands for bicubic and leaves the default nearest filter). -/
def samplerFor (filterOrNullForBicubic : Option FilterMode) : SamplerState :=
  ⟨false, filterOrNullForBicubic.getD FilterMode.nearest⟩

/-- Modelled from the spec: the base-class `refTextureProxyForParams`
wrapper is external to the sampled source; it derives `willBeMipped` from
the sampler's filter (mip-mapped sampling requests mips) before
dispatching to `onRefTextureProxyForParams`. -/
def willBeMippedFor (params : SamplerState) : Bool :=
  params.filter == FilterMode.mipMap

/-- Embedding of `GrTextureAdjuster::createFragmentProcessor`: select the texture (null
propagates); post-scale the texture matrix by `scaleAdjust` exactly when
the selection differs from the original proxy; run the domain solver and,
when it answers `TightCopyRequested`, downgrade the filter to bilinear and
run it once more; hand the result to fragment-processor assembly. -/
def createFragmentProcessor (env : Env) (adj : Adjuster) (origTextureMatrix : SkMatrix)
    (constraintRect : SkRect) (fc : FilterConstraint) (coordsLimited : Bool)
    (filterOrNullForBicubic : Option FilterMode) (cache : Cache) : FPResult :=
  let samplerState := samplerFor filterOrNullForBicubic
  let sel := onRefTextureProxyForParams env adj samplerState
    (willBeMippedFor samplerState) cache
  match sel.res with
  | none => ⟨none, sel.cache, sel.trace⟩
  | some proxy =>
    let textureMatrix :=
      if proxy.id ≠ adj.original.id then
        origTextureMatrix.postScale sel.scaleAdjust.1 sel.scaleAdjust.2
      else
        origTextureMatrix
    let first := determineDomainMode constraintRect fc coordsLimited
      (proxy.width : ℚ) (proxy.height : ℚ) filterOrNullForBicubic
    let resolved :=
      if first.1 = DomainMode.tightCopy then
        (determineDomainMode constraintRect fc coordsLimited
          (proxy.width : ℚ) (proxy.height : ℚ) (some FilterMode.bilerp),
         [Effect.solverCall, Effect.solverCall])
      else
        (first, [Effect.solverCall])
    ⟨some ⟨proxy, textureMatrix, resolved.1.1, resolved.1.2, filterOrNullForBicubic⟩,
      sel.cache, sel.trace ++ resolved.2 ++ [Effect.assembleCall]⟩

/-! ### Concrete sample data used by the witnesses -/

/-- A sample original proxy without mip levels. -/
def pOrig : Proxy := ⟨1, 100, 100, false⟩

/-- A sample non-mipped copy. -/
def pCopy : Proxy := ⟨2, 128, 128, false⟩

/-- A sample mipped copy. -/
def pCopyMip : Proxy := ⟨3, 128, 128, true⟩

/-- A live adjuster over `pOrig` with a nonzero image ID. -/
def adjLive : Adjuster := ⟨pOrig, 7, true⟩

/-- An adjuster whose owning context has been abandoned. -/
def adjDead : Adjuster := ⟨pOrig, 7, false⟩

/-- An adjuster with content identity zero (invalid keys). -/
def adjNoKey : Adjuster := ⟨pOrig, 0, true⟩

/-- Sample copy parameters. -/
def cpSample : CopyParams := ⟨128, 128, false⟩

/-- An environment whose copy engine always fails, with a mips-only copy
requirement. -/
def envMipsFail : Env := ⟨false, cpSample, (1, 1), true, cpSample, fun _ _ => none⟩

/-- An environment whose copy engine always fails, with a wrap-mode copy
requirement. -/
def envWrapFail : Env := ⟨true, cpSample, (100 / 128, 100 / 128), false, cpSample, fun _ _ => none⟩

/-- An environment with a mips-only copy requirement whose copy engine
produces a mipped copy when asked to. -/
def envMipsOk : Env :=
  ⟨false, cpSample, (1, 1), true, cpSample, fun _ wm => some (if wm then pCopyMip else pCopy)⟩

/-- An environment that requires no copy at all and never copies. -/
def envNoCopy : Env := ⟨false, cpSample, (1, 1), false, cpSample, fun _ _ => none⟩

/-! ### Claims about the selection façade -/

/-- C5: if the owning context has been abandoned, selection returns null
immediately: the cache is untouched, the effect trace is empty (no
analysis, no cache query, no GPU copy), and `scaleAdjust` keeps its
initial value. -/
theorem select_abandoned_returns_null (env : Env) (adj : Adjuster)
    (params : SamplerState) (willBeMipped : Bool) (cache : Cache)
    (h : adj.contextAlive = false) :
    onRefTextureProxyForParams env adj params willBeMipped cache =
      ⟨none, cache, [], (1, 1)⟩ := by
  unfold onRefTextureProxyForParams
  simp [h]

/-- Witness for C5 at a concrete abandoned adjuster. -/
theorem select_abandoned_returns_null_witness :
    onRefTextureProxyForParams envNoCopy adjDead ⟨false, FilterMode.nearest⟩ false [] =
      ⟨none, [], [], (1, 1)⟩ :=
  select_abandoned_returns_null envNoCopy adjDead ⟨false, FilterMode.nearest⟩ false [] rfl

/-- C7: when the analyzer decides no copy is needed (wrap mode legal and
mips available or not requested), selection returns exactly the original
proxy, with no effects and the cache unchanged. -/
theorem select_no_copy_returns_original (env : Env) (adj : Adjuster)
    (params : SamplerState) (willBeMipped : Bool) (cache : Cache)
    (halive : adj.contextAlive = true)
    (hwrap : (params.repeated && env.wrapNeedsCopy) = false)
    (hmips : env.mipsNeedsCopy = false) :
    onRefTextureProxyForParams env adj params willBeMipped cache =
      ⟨some adj.original, cache, [], (1, 1)⟩ := by
  unfold onRefTextureProxyForParams
  simp [halive, hwrap, hmips]

/-- Witness for C7 at a concrete no-copy environment. -/
theorem select_no_copy_returns_original_witness :
    onRefTextureProxyForParams envNoCopy adjLive ⟨false, FilterMode.bilerp⟩ false [] =
      ⟨some pOrig, [], [], (1, 1)⟩ :=
  select_no_copy_returns_original envNoCopy adjLive ⟨false, FilterMode.bilerp⟩ false []
    rfl rfl rfl

/-- C9: with a zero content identity the key is invalid, and the gateway
skips both the cache lookup and the registration: the trace holds exactly
the GPU copy attempt, the cache is unchanged, and the result is whatever
the copy engine produced (a successful copy is still returned). -/
theorem resolve_invalid_key_skips_cache (env : Env) (adj : Adjuster)
    (copyParams : CopyParams) (willBeMipped : Bool) (cache : Cache)
    (h : adj.uniqueID = 0) :
    refTextureProxyCopy env adj copyParams willBeMipped cache =
      ⟨env.copyOnGpu copyParams willBeMipped, cache,
        [Effect.gpuCopy copyParams willBeMipped]⟩ := by
  unfold refTextureProxyCopy makeCopyKey Key.isValid
  simp only [h]
  cases henv : env.copyOnGpu copyParams willBeMipped <;> simp [henv]

/-- Witness for C9 at a concrete zero-identity adjuster with a succeeding
copy engine. -/
theorem resolve_invalid_key_skips_cache_witness :
    refTextureProxyCopy envMipsOk adjNoKey cpSample true [] =
      ⟨some pCopyMip, [], [Effect.gpuCopy cpSample true]⟩ :=
  resolve_invalid_key_skips_cache envMipsOk adjNoKey cpSample true [] rfl

/-- C1: when a copy was requested and the gateway fails (returns null),
selection returns the original proxy if the copy was needed only for the
mip requirement, and null if the copy was required for wrap-mode
correctness. -/
theorem select_copy_fail_fallback (env : Env) (adj : Adjuster)
    (params : SamplerState) (willBeMipped : Bool) (cache : Cache)
    (halive : adj.contextAlive = true)
    (hreq : (params.repeated && env.wrapNeedsCopy) = true ∨ env.mipsNeedsCopy = true)
    (hfail : (refTextureProxyCopy env adj
        (if params.repeated && env.wrapNeedsCopy then env.wrapCopyParams
          else env.mipsCopyParams) willBeMipped cache).res = none) :
    (onRefTextureProxyForParams env adj params willBeMipped cache).res =
      if params.repeated && env.wrapNeedsCopy then none else some adj.original := by
  unfold onRefTextureProxyForParams
  cases hw : (params.repeated && env.wrapNeedsCopy) with
  | true =>
    rw [hw] at hfail
    simp only [if_pos trivial, if_true] at hfail
    simp [hw, halive, hfail]
  | false =>
    rw [hw] at hfail
    simp only [Bool.false_eq_true, if_neg, if_false] at hfail
    have hm : env.mipsNeedsCopy = true := by
      rcases hreq with h | h
      · rw [hw] at h; exact absurd h (by simp)
      · exact h
    simp only [hw, halive, hm, Bool.false_eq_true, if_false, Bool.not_false, Bool.not_true,
      if_true]
    simp [hfail]

/-- Witness for C1 at a concrete mips-only request whose copy engine
fails: selection falls back to the original proxy. -/
theorem select_copy_fail_fallback_witness :
    (onRefTextureProxyForParams envMipsFail adjLive ⟨false, FilterMode.mipMap⟩ true []).res =
      some pOrig :=
  select_copy_fail_fallback envMipsFail adjLive ⟨false, FilterMode.mipMap⟩ true []
    rfl (Or.inr rfl) rfl

/-! ### Claims about the domain solver -/

/-- The inset interval is always ordered: either the inset fits, or both
ends collapse to the midpoint. -/
theorem insetClamped_le (lo hi d : ℚ) :
    (insetClamped lo hi d).1 ≤ (insetClamped lo hi d).2 := by
  unfold insetClamped
  split
  · simpa using (by assumption : lo + d ≤ hi - d)
  · exact le_refl _

/-- Clamping into an interval is monotone. -/
theorem clampQ_mono (x y lo hi : ℚ) (h : x ≤ y) :
    clampQ x lo hi ≤ clampQ y lo hi :=
  min_le_min (max_le_max h (le_refl lo)) (le_refl hi)

/-- The clamped domain rectangle is always ordered. -/
theorem domRect_ordered (c : SkRect) (w h : ℚ) (f : Option FilterMode) :
    (domRect c w h f).ordered :=
  ⟨clampQ_mono _ _ _ _ (insetClamped_le c.left c.right (filterBound f)),
   clampQ_mono _ _ _ _ (insetClamped_le c.top c.bottom (filterBound f))⟩

/-- C6: every solver output whose mode is not `NoDomain` has an ordered
domain rectangle (`left ≤ right` and `top ≤ bottom`); this covers the
downgrade retry, which is just another solver invocation. -/
theorem domain_solver_rect_ordered (c : SkRect) (fc : FilterConstraint)
    (lim : Bool) (w h : ℚ) (f : Option FilterMode)
    (hmode : (determineDomainMode c fc lim w h f).1 ≠ DomainMode.noDomain) :
    ((determineDomainMode c fc lim w h f).2).ordered := by
  have hsnd : (determineDomainMode c fc lim w h f).1 = DomainMode.noDomain ∨
      (determineDomainMode c fc lim w h f).2 = domRect c w h f := by
    unfold determineDomainMode
    split
    · exact Or.inl rfl
    · split
      · exact Or.inl rfl
      · split
        · exact Or.inr rfl
        · exact Or.inr rfl
  rcases hsnd with hs | hs
  · exact absurd hs hmode
  · rw [hs]
    exact domRect_ordered c w h f

/-- Witness for C6 at a concrete clamped output. -/
theorem domain_solver_rect_ordered_witness :
    ((determineDomainMode ⟨1, 1, 9, 9⟩ FilterConstraint.strict false 10 10
        (some FilterMode.bilerp)).2).ordered :=
  domain_solver_rect_ordered ⟨1, 1, 9, 9⟩ FilterConstraint.strict false 10 10
    (some FilterMode.bilerp)
    (by norm_num [determineDomainMode, domainExceeds, filterBound, tightCopyEligible]; decide)

/-! ### Claims about the fragment-processor façade -/

/-- The gateway never invokes the domain solver or fragment-processor
assembly. -/
theorem refTextureProxyCopy_no_pipeline_calls (env : Env) (adj : Adjuster)
    (copyParams : CopyParams) (wm : Bool) (cache : Cache) :
    countSolverCalls (refTextureProxyCopy env adj copyParams wm cache).trace = 0 ∧
    countAssembleCalls (refTextureProxyCopy env adj copyParams wm cache).trace = 0 := by
  simp only [refTextureProxyCopy]
  repeat' split
  all_goals simp [countSolverCalls, countAssembleCalls]

/-- Selection never invokes the domain solver or fragment-processor
assembly. -/
theorem onRef_no_pipeline_calls (env : Env) (adj : Adjuster) (params : SamplerState)
    (wm : Bool) (cache : Cache) :
    countSolverCalls (onRefTextureProxyForParams env adj params wm cache).trace = 0 ∧
    countAssembleCalls (onRefTextureProxyForParams env adj params wm cache).trace = 0 := by
  simp only [onRefTextureProxyForParams]
  repeat' split
  all_goals
    first
    | exact refTextureProxyCopy_no_pipeline_calls env adj env.mipsCopyParams wm cache
    | exact refTextureProxyCopy_no_pipeline_calls env adj env.wrapCopyParams wm cache
    | simp [countSolverCalls, countAssembleCalls]

/-- Solver-call counts add up across concatenated traces. -/
theorem countSolverCalls_append (a b : List Effect) :
    countSolverCalls (a ++ b) = countSolverCalls a + countSolverCalls b := by
  simp [countSolverCalls, List.filter_append]

/-- After the downgrade to bilinear, the solver can no longer answer
`TightCopyRequested`. -/
theorem determineDomainMode_bilerp_not_tight (c : SkRect) (fc : FilterConstraint)
    (lim : Bool) (w h : ℚ) :
    (determineDomainMode c fc lim w h (some FilterMode.bilerp)).1 ≠
      DomainMode.tightCopy := by
  unfold determineDomainMode
  split
  · simp
  · split
    · simp
    · split
      · rename_i hcond
        exact absurd hcond.2 (by simp [tightCopyEligible])
      · simp

/-- C3: when the first domain computation of a bicubic request answers
`TightCopyRequested`, the façade recomputes with the filter downgraded to
bilinear exactly once — the trace holds exactly two solver invocations —
and the assembled mode is the retried result, which is `Clamped` or
`NoDomain`, never `TightCopyRequested` again. -/
theorem facade_downgrade_terminates (env : Env) (adj : Adjuster) (m : SkMatrix)
    (cr : SkRect) (fc : FilterConstraint) (lim : Bool) (cache : Cache) (proxy : Proxy)
    (hsel : (onRefTextureProxyForParams env adj (samplerFor none)
        (willBeMippedFor (samplerFor none)) cache).res = some proxy)
    (htight : (determineDomainMode cr fc lim (proxy.width : ℚ) (proxy.height : ℚ)
        none).1 = DomainMode.tightCopy) :
    ∃ fp, (createFragmentProcessor env adj m cr fc lim none cache).fp = some fp ∧
      fp.mode = (determineDomainMode cr fc lim (proxy.width : ℚ) (proxy.height : ℚ)
        (some FilterMode.bilerp)).1 ∧
      (fp.mode = DomainMode.clamped ∨ fp.mode = DomainMode.noDomain) ∧
      countSolverCalls (createFragmentProcessor env adj m cr fc lim none cache).trace =
        2 := by
  have hnosolver := onRef_no_pipeline_calls env adj (samplerFor none)
    (willBeMippedFor (samplerFor none)) cache
  simp only [createFragmentProcessor, hsel, htight, if_pos, if_true]
  refine ⟨_, rfl, rfl, ?_, ?_⟩
  · cases hmode : (determineDomainMode cr fc lim (proxy.width : ℚ) (proxy.height : ℚ)
        (some FilterMode.bilerp)).1 with
    | noDomain => exact Or.inr rfl
    | clamped => exact Or.inl rfl
    | tightCopy =>
      exact absurd hmode
        (determineDomainMode_bilerp_not_tight cr fc lim (proxy.width : ℚ) (proxy.height : ℚ))
  · rw [countSolverCalls_append, countSolverCalls_append, hnosolver.1]
    rfl

/-- Witness for C3: a live adjuster needing no copy, with a bicubic
constraint touching the texture edge; the first solver answer is a tight
copy, the retried answer is clamped. -/
theorem facade_downgrade_terminates_witness :
    ∃ fp, (createFragmentProcessor envNoCopy adjLive ⟨1, 0, 0, 0, 1, 0⟩
        ⟨0, 0, 100, 100⟩ FilterConstraint.strict false none []).fp = some fp ∧
      fp.mode = (determineDomainMode ⟨0, 0, 100, 100⟩ FilterConstraint.strict false
        (pOrig.width : ℚ) (pOrig.height : ℚ) (some FilterMode.bilerp)).1 ∧
      (fp.mode = DomainMode.clamped ∨ fp.mode = DomainMode.noDomain) ∧
      countSolverCalls (createFragmentProcessor envNoCopy adjLive ⟨1, 0, 0, 0, 1, 0⟩
        ⟨0, 0, 100, 100⟩ FilterConstraint.strict false none []).trace = 2 :=
  facade_downgrade_terminates envNoCopy adjLive ⟨1, 0, 0, 0, 1, 0⟩ ⟨0, 0, 100, 100⟩
    FilterConstraint.strict false [] pOrig rfl
    (by norm_num [determineDomainMode, domainExceeds, filterBound, tightCopyEligible]
        decide)

/-- Assembly-call counts add up across concatenated traces. -/
theorem countAssembleCalls_append (a b : List Effect) :
    countAssembleCalls (a ++ b) = countAssembleCalls a + countAssembleCalls b := by
  simp [countAssembleCalls, List.filter_append]

/-- C10: when texture selection returns null inside
`createFragmentProcessor`, the façade returns null and its trace shows no
domain-solver invocation and no fragment-processor assembly. -/
theorem facade_null_propagates (env : Env) (adj : Adjuster) (m : SkMatrix)
    (cr : SkRect) (fc : FilterConstraint) (lim : Bool)
    (filterOrNullForBicubic : Option FilterMode) (cache : Cache)
    (hsel : (onRefTextureProxyForParams env adj (samplerFor filterOrNullForBicubic)
        (willBeMippedFor (samplerFor filterOrNullForBicubic)) cache).res = none) :
    (createFragmentProcessor env adj m cr fc lim filterOrNullForBicubic cache).fp =
      none ∧
    countSolverCalls
      (createFragmentProcessor env adj m cr fc lim filterOrNullForBicubic cache).trace = 0 ∧
    countAssembleCalls
      (createFragmentProcessor env adj m cr fc lim filterOrNullForBicubic cache).trace =
      0 := by
  have hnopipe := onRef_no_pipeline_calls env adj (samplerFor filterOrNullForBicubic)
    (willBeMippedFor (samplerFor filterOrNullForBicubic)) cache
  simp only [createFragmentProcessor, hsel]
  refine ⟨?_, hnopipe.1, hnopipe.2⟩
  trivial

/-- Witness for C10 at an abandoned context, where selection returns null. -/
theorem facade_null_propagates_witness :
    (createFragmentProcessor envNoCopy adjDead ⟨1, 0, 0, 0, 1, 0⟩ ⟨0, 0, 50, 50⟩
        FilterConstraint.strict false (some FilterMode.bilerp) []).fp = none ∧
    countSolverCalls (createFragmentProcessor envNoCopy adjDead ⟨1, 0, 0, 0, 1, 0⟩
        ⟨0, 0, 50, 50⟩ FilterConstraint.strict false (some FilterMode.bilerp) []).trace = 0 ∧
    countAssembleCalls (createFragmentProcessor envNoCopy adjDead ⟨1, 0, 0, 0, 1, 0⟩
        ⟨0, 0, 50, 50⟩ FilterConstraint.strict false (some FilterMode.bilerp) []).trace = 0 :=
  facade_null_propagates envNoCopy adjDead ⟨1, 0, 0, 0, 1, 0⟩ ⟨0, 0, 50, 50⟩
    FilterConstraint.strict false (some FilterMode.bilerp) [] rfl

/-- C8: the texture matrix handed to assembly is post-scaled by the
selection's `scaleAdjust` exactly when the selected proxy differs from the
original (pointer identity); when the original is selected it is passed
through unchanged. -/
theorem facade_matrix_postscaled_iff_copy (env : Env) (adj : Adjuster) (m : SkMatrix)
    (cr : SkRect) (fc : FilterConstraint) (lim : Bool)
    (filterOrNullForBicubic : Option FilterMode) (cache : Cache) (proxy : Proxy)
    (hsel : (onRefTextureProxyForParams env adj (samplerFor filterOrNullForBicubic)
        (willBeMippedFor (samplerFor filterOrNullForBicubic)) cache).res = some proxy) :
    ∃ fp,
      (createFragmentProcessor env adj m cr fc lim filterOrNullForBicubic cache).fp =
        some fp ∧
      fp.matrix =
        (if proxy.id ≠ adj.original.id then
          m.postScale
            (onRefTextureProxyForParams env adj (samplerFor filterOrNullForBicubic)
              (willBeMippedFor (samplerFor filterOrNullForBicubic)) cache).scaleAdjust.1
            (onRefTextureProxyForParams env adj (samplerFor filterOrNullForBicubic)
              (willBeMippedFor (samplerFor filterOrNullForBicubic)) cache).scaleAdjust.2
        else m) := by
  simp only [createFragmentProcessor, hsel]
  exact ⟨_, rfl, rfl⟩

/-- Witness for C8: a mips-only copy is selected (a proxy different from
the original), so the matrix is post-scaled by the (unit) scale
adjustment. -/
theorem facade_matrix_postscaled_iff_copy_witness :
    ∃ fp,
      (createFragmentProcessor envMipsOk adjLive ⟨2, 0, 3, 0, 2, 5⟩ ⟨0, 0, 50, 50⟩
          FilterConstraint.strict false (some FilterMode.mipMap) []).fp = some fp ∧
      fp.matrix =
        (if pCopyMip.id ≠ adjLive.original.id then
          SkMatrix.postScale ⟨2, 0, 3, 0, 2, 5⟩
            (onRefTextureProxyForParams envMipsOk adjLive
              (samplerFor (some FilterMode.mipMap))
              (willBeMippedFor (samplerFor (some FilterMode.mipMap))) []).scaleAdjust.1
            (onRefTextureProxyForParams envMipsOk adjLive
              (samplerFor (some FilterMode.mipMap))
              (willBeMippedFor (samplerFor (some FilterMode.mipMap))) []).scaleAdjust.2
        else ⟨2, 0, 3, 0, 2, 5⟩) :=
  facade_matrix_postscaled_iff_copy envMipsOk adjLive ⟨2, 0, 3, 0, 2, 5⟩ ⟨0, 0, 50, 50⟩
    FilterConstraint.strict false (some FilterMode.mipMap) [] pCopyMip rfl

/-! ### Claims about the copy-cache gateway -/

/-- Branch lemma: a valid key with a cache hit that satisfies the mip
requirement returns the hit immediately — no GPU work, cache unchanged. -/
theorem refTextureProxyCopy_hit (env : Env) (adj : Adjuster) (copyParams : CopyParams)
    (wm : Bool) (cache : Cache) (cc : Proxy)
    (h1 : (makeCopyKey adj copyParams).isValid = true)
    (h2 : findByKey cache (makeCopyKey adj copyParams) = some cc)
    (h3 : (!wm || cc.mipped) = true) :
    refTextureProxyCopy env adj copyParams wm cache =
      ⟨some cc, cache, [Effect.lookup (makeCopyKey adj copyParams)]⟩ := by
  simp only [refTextureProxyCopy, h1, h2, h3]
  rfl

/-- Branch lemma: a valid key with a cache hit lacking required mips and a
successful copy supersedes the entry: detach from the old, attach to the
new. -/
theorem refTextureProxyCopy_upgrade (env : Env) (adj : Adjuster)
    (copyParams : CopyParams) (wm : Bool) (cache : Cache) (cc cp : Proxy)
    (h1 : (makeCopyKey adj copyParams).isValid = true)
    (h2 : findByKey cache (makeCopyKey adj copyParams) = some cc)
    (h3 : (!wm || cc.mipped) = false)
    (h4 : env.copyOnGpu copyParams wm = some cp) :
    refTextureProxyCopy env adj copyParams wm cache =
      ⟨some cp,
        assignKey (removeKeyFromProxy cache (makeCopyKey adj copyParams) cc.id)
          (makeCopyKey adj copyParams) cp,
        [Effect.lookup (makeCopyKey adj copyParams),
         Effect.gpuCopy copyParams wm,
         Effect.removeKey (makeCopyKey adj copyParams) cc.id,
         Effect.assignKey (makeCopyKey adj copyParams) cp]⟩ := by
  simp only [refTextureProxyCopy, h1, h2, h3, h4]
  rfl

/-- Branch lemma: a valid key with a cache miss and a successful copy
registers the new entry. -/
theorem refTextureProxyCopy_miss (env : Env) (adj : Adjuster)
    (copyParams : CopyParams) (wm : Bool) (cache : Cache) (cp : Proxy)
    (h1 : (makeCopyKey adj copyParams).isValid = true)
    (h2 : findByKey cache (makeCopyKey adj copyParams) = none)
    (h4 : env.copyOnGpu copyParams wm = some cp) :
    refTextureProxyCopy env adj copyParams wm cache =
      ⟨some cp, assignKey cache (makeCopyKey adj copyParams) cp,
        [Effect.lookup (makeCopyKey adj copyParams),
         Effect.gpuCopy copyParams wm,
         Effect.assignKey (makeCopyKey adj copyParams) cp]⟩ := by
  simp only [refTextureProxyCopy, h1, h2, h4]
  rfl

/-- A freshly assigned key resolves to the assigned proxy. -/
theorem findByKey_assign_self (c : Cache) (k : Key) (p : Proxy) :
    findByKey (assignKey c k p) k = some p := by
  simp [findByKey, assignKey, List.find?]

/-- C4: with a valid key and a copy engine that produces a copy with the
required capability, a cache hit already satisfying the mip requirement is
returned with no GPU copy, and two consecutive resolves with identical
arguments issue at most one GPU copy in total, the second resolving with
none (a cache hit). -/
theorem resolve_idempotent (env : Env) (adj : Adjuster) (copyParams : CopyParams)
    (wm : Bool) (cache : Cache) (cp : Proxy)
    (hvalid : (makeCopyKey adj copyParams).isValid = true)
    (hcopy : env.copyOnGpu copyParams wm = some cp)
    (hcpmip : wm = true → cp.mipped = true) :
    (∀ cc, findByKey cache (makeCopyKey adj copyParams) = some cc →
      (!wm || cc.mipped) = true →
      (refTextureProxyCopy env adj copyParams wm cache).res = some cc ∧
      countGpuCopies (refTextureProxyCopy env adj copyParams wm cache).trace = 0) ∧
    countGpuCopies (refTextureProxyCopy env adj copyParams wm cache).trace +
      countGpuCopies (refTextureProxyCopy env adj copyParams wm
        (refTextureProxyCopy env adj copyParams wm cache).cache).trace ≤ 1 ∧
    countGpuCopies (refTextureProxyCopy env adj copyParams wm
      (refTextureProxyCopy env adj copyParams wm cache).cache).trace = 0 := by
  have hcpsat : (!wm || cp.mipped) = true := by
    cases hwm : wm
    · rfl
    · simp [hcpmip hwm]
  constructor
  · intro cc hfind hsat
    rw [refTextureProxyCopy_hit env adj copyParams wm cache cc hvalid hfind hsat]
    exact ⟨rfl, rfl⟩
  · cases hfind : findByKey cache (makeCopyKey adj copyParams) with
    | some cc =>
      cases hsat : (!wm || cc.mipped) with
      | true =>
        rw [refTextureProxyCopy_hit env adj copyParams wm cache cc hvalid hfind hsat]
        dsimp only
        rw [refTextureProxyCopy_hit env adj copyParams wm cache cc hvalid hfind hsat]
        simp [countGpuCopies]
      | false =>
        rw [refTextureProxyCopy_upgrade env adj copyParams wm cache cc cp hvalid hfind
          hsat hcopy]
        dsimp only
        rw [refTextureProxyCopy_hit env adj copyParams wm _ cp hvalid
          (findByKey_assign_self _ _ _) hcpsat]
        simp [countGpuCopies]
    | none =>
      rw [refTextureProxyCopy_miss env adj copyParams wm cache cp hvalid hfind hcopy]
      dsimp only
      rw [refTextureProxyCopy_hit env adj copyParams wm _ cp hvalid
        (findByKey_assign_self _ _ _) hcpsat]
      simp [countGpuCopies]

/-- Witness for C4 at a concrete mips request over an empty cache. -/
theorem resolve_idempotent_witness :
    (∀ cc, findByKey [] (makeCopyKey adjLive cpSample) = some cc →
      (!true || cc.mipped) = true →
      (refTextureProxyCopy envMipsOk adjLive cpSample true []).res = some cc ∧
      countGpuCopies (refTextureProxyCopy envMipsOk adjLive cpSample true []).trace = 0) ∧
    countGpuCopies (refTextureProxyCopy envMipsOk adjLive cpSample true []).trace +
      countGpuCopies (refTextureProxyCopy envMipsOk adjLive cpSample true
        (refTextureProxyCopy envMipsOk adjLive cpSample true []).cache).trace ≤ 1 ∧
    countGpuCopies (refTextureProxyCopy envMipsOk adjLive cpSample true
      (refTextureProxyCopy envMipsOk adjLive cpSample true []).cache).trace = 0 :=
  resolve_idempotent envMipsOk adjLive cpSample true [] pCopyMip rfl rfl (fun _ => rfl)

/-- When a key resolves to `cc` and has exactly one live entry, the
entries under the key are exactly `[(k, cc)]`. -/
theorem cache_filter_singleton (l : Cache) (k : Key) (cc : Proxy)
    (hfind : findByKey l k = some cc) (hcount : countKey l k = 1) :
    l.filter (fun e => e.1 = k) = [(k, cc)] := by
  induction l with
  | nil => simp [findByKey] at hfind
  | cons e t ih =>
    by_cases he : e.1 = k
    · have hcc : e.2 = cc := by
        simp [findByKey, List.find?_cons, he] at hfind
        exact hfind
      have htail : t.filter (fun e => e.1 = k) = [] := by
        have h1 : (List.filter (fun e => decide (e.1 = k)) (e :: t)).length = 1 := hcount
        rw [List.filter_cons, if_pos (by simpa using he)] at h1
        simp only [List.length_cons] at h1
        exact List.length_eq_zero.mp (by omega)
      rw [List.filter_cons]
      simp [he, htail]
      exact Prod.ext he hcc
    · have hfind' : findByKey t k = some cc := by
        simpa [findByKey, List.find?_cons, he] using hfind
      have hcount' : countKey t k = 1 := by
        have : (List.filter (fun e => decide (e.1 = k)) (e :: t)).length = 1 := hcount
        rw [List.filter_cons] at this
        simpa [he] using this
      have := ih hfind' hcount'
      rw [List.filter_cons]
      simpa [he] using this

/-- Detaching the key from the only entry holding it leaves no live entry
under the key. -/
theorem remove_clears_key (l : Cache) (k : Key) (cc : Proxy)
    (hfilter : l.filter (fun e => e.1 = k) = [(k, cc)]) :
    (removeKeyFromProxy l k cc.id).filter (fun e => e.1 = k) = [] := by
  rw [List.eq_nil_iff_forall_not_mem]
  intro e he
  rw [List.mem_filter] at he
  obtain ⟨hmem, hek⟩ := he
  unfold removeKeyFromProxy at hmem
  rw [List.mem_filter] at hmem
  obtain ⟨hml, hq⟩ := hmem
  have hmemf : e ∈ l.filter (fun e => e.1 = k) := List.mem_filter.mpr ⟨hml, hek⟩
  rw [hfilter] at hmemf
  have he' : e = (k, cc) := by simpa using hmemf
  subst he'
  simp at hq

/-- C2: resolving with `wantMips = true` over a cache whose (valid) key
holds exactly one non-mipped entry issues exactly one GPU copy, returns
the new copy, and supersedes the old entry: the trace detaches the key
from the old entry before attaching it to the new one, replaying any
prefix of the trace never shows two live entries under the key, and
afterwards the key's entries are exactly the new copy (the old entry is no
longer discoverable by the key). -/
theorem resolve_mip_upgrade (env : Env) (adj : Adjuster) (copyParams : CopyParams)
    (cache : Cache) (cc cp : Proxy)
    (hvalid : (makeCopyKey adj copyParams).isValid = true)
    (hfind : findByKey cache (makeCopyKey adj copyParams) = some cc)
    (hcount : countKey cache (makeCopyKey adj copyParams) = 1)
    (hccmip : cc.mipped = false)
    (hcopy : env.copyOnGpu copyParams true = some cp) :
    (refTextureProxyCopy env adj copyParams true cache).res = some cp ∧
    countGpuCopies (refTextureProxyCopy env adj copyParams true cache).trace = 1 ∧
    (refTextureProxyCopy env adj copyParams true cache).trace =
      [Effect.lookup (makeCopyKey adj copyParams),
       Effect.gpuCopy copyParams true,
       Effect.removeKey (makeCopyKey adj copyParams) cc.id,
       Effect.assignKey (makeCopyKey adj copyParams) cp] ∧
    (refTextureProxyCopy env adj copyParams true cache).cache =
      applyEffects cache (refTextureProxyCopy env adj copyParams true cache).trace ∧
    ((refTextureProxyCopy env adj copyParams true cache).cache.filter
      (fun e => e.1 = makeCopyKey adj copyParams)) =
      [(makeCopyKey adj copyParams, cp)] ∧
    (∀ n : Nat, countKey (applyEffects cache
      ((refTextureProxyCopy env adj copyParams true cache).trace.take n))
      (makeCopyKey adj copyParams) ≤ 1) := by
  have hsat : (!true || cc.mipped) = false := by simp [hccmip]
  have hfs := cache_filter_singleton cache (makeCopyKey adj copyParams) cc hfind hcount
  have hrc := remove_clears_key cache (makeCopyKey adj copyParams) cc hfs
  rw [refTextureProxyCopy_upgrade env adj copyParams true cache cc cp hvalid hfind
    hsat hcopy]
  dsimp only
  refine ⟨rfl, ?_, rfl, rfl, ?_, ?_⟩
  · simp [countGpuCopies]
  · simp [assignKey, List.filter_cons, hrc]
  · intro n
    rcases n with _ | _ | _ | _ | n
    · simpa [applyEffects, countKey] using hcount.le
    · simpa [applyEffects, applyEffect, countKey, List.take] using hcount.le
    · simpa [applyEffects, applyEffect, countKey, List.take] using hcount.le
    · simp [applyEffects, applyEffect, List.take, countKey, hrc]
    · simp [applyEffects, applyEffect, List.take, countKey, assignKey,
        List.filter_cons, hrc]

/-- Witness for C2: a concrete cache holding one non-mipped copy under the
key is superseded by a mipped copy. -/
theorem resolve_mip_upgrade_witness :
    (refTextureProxyCopy envMipsOk adjLive cpSample true
      [(makeCopyKey adjLive cpSample, pCopy)]).res = some pCopyMip ∧
    countGpuCopies (refTextureProxyCopy envMipsOk adjLive cpSample true
      [(makeCopyKey adjLive cpSample, pCopy)]).trace = 1 ∧
    (refTextureProxyCopy envMipsOk adjLive cpSample true
      [(makeCopyKey adjLive cpSample, pCopy)]).trace =
      [Effect.lookup (makeCopyKey adjLive cpSample),
       Effect.gpuCopy cpSample true,
       Effect.removeKey (makeCopyKey adjLive cpSample) pCopy.id,
       Effect.assignKey (makeCopyKey adjLive cpSample) pCopyMip] ∧
    (refTextureProxyCopy envMipsOk adjLive cpSample true
      [(makeCopyKey adjLive cpSample, pCopy)]).cache =
      applyEffects [(makeCopyKey adjLive cpSample, pCopy)]
        (refTextureProxyCopy envMipsOk adjLive cpSample true
          [(makeCopyKey adjLive cpSample, pCopy)]).trace ∧
    ((refTextureProxyCopy envMipsOk adjLive cpSample true
      [(makeCopyKey adjLive cpSample, pCopy)]).cache.filter
        (fun e => e.1 = makeCopyKey adjLive cpSample)) =
      [(makeCopyKey adjLive cpSample, pCopyMip)] ∧
    (∀ n : Nat, countKey (applyEffects [(makeCopyKey adjLive cpSample, pCopy)]
      ((refTextureProxyCopy envMipsOk adjLive cpSample true
        [(makeCopyKey adjLive cpSample, pCopy)]).trace.take n))
      (makeCopyKey adjLive cpSample) ≤ 1) :=
  resolve_mip_upgrade envMipsOk adjLive cpSample
    [(makeCopyKey adjLive cpSample, pCopy)] pCopy pCopyMip rfl rfl rfl rfl rfl
